import Mathlib

/-
Verification of the charon logger manager (strongswan).

The repository provides the interface src/Source/charon/utils/logger_manager.h:
a registry (`logger_manager_t`) that owns a per-category verbosity table and
the set of `logger_t` handles it has created and not yet released.  Only the
header is present; the bodies of the operations and `logger.h` are modelled
from the spec where noted.  The state of a manager is embedded as an explicit
record and each operation of the function-pointer table becomes a function
on that record.
-/

/-- The `logger_context_t` enumeration from `logger_manager.h`: the fixed,
closed set of subsystem categories. -/
inductive logger_context_t where
  | PARSER
  | GENERATOR
  | IKE_SA
  | IKE_SA_MANAGER
  | CHILD_SA
  | MESSAGE
  | THREAD_POOL
  | WORKER
  | SCHEDULER
  | SENDER
  | RECEIVER
  | SOCKET
  | TESTER
  | DAEMON
  | CONFIGURATION_MANAGER
  | ENCRYPTION_PAYLOAD
  deriving DecidableEq, Repr

/-- `logger_level_t`: the verbosity bitmask.  `logger.h` is not under `src/`;
the spec treats this as an opaque bitmask the registry stores, unions into and
subtracts from, so it is embedded as a natural number used bitwise. -/
abbrev logger_level_t := Nat

/-- Modelled from the spec: `logger.h` (the external Logger capability) is not
under `src/`.  An EmitterHandle carries its owning category and an optional
name; the identity of the C heap object (its pointer) is modelled by a numeric
id assigned at creation. -/
structure logger_t where
  context : logger_context_t
  name : Option String
  id : Nat
  deriving DecidableEq, Repr

/-- Modelled from the spec: the two error kinds of section 7
(AllocationFailure, InvalidHandle). -/
inductive LogError where
  | AllocationFailure
  | InvalidHandle
  deriving DecidableEq, Repr

/-- The state behind a `logger_manager_t` object: the per-category level table
(`loggers_levels`), the list of managed loggers, and bookkeeping that models
the external capability: `disposed` records, in order, the ids passed to the
external dispose, `next_id` provides fresh ids (fresh heap pointers), and
`destroyed` records that the manager itself has been released. -/
@[ext]
structure logger_manager_t where
  levels : logger_context_t → logger_level_t
  loggers : List logger_t
  disposed : List Nat
  next_id : Nat
  destroyed : Bool

/-- `logger_manager_create(default_log_level)`: every category starts at the
caller-supplied default; no logger is tracked yet.  (Body modelled from the
spec and the header doc: "default log level for all context".) -/
def logger_manager_create (default_log_level : logger_level_t) : logger_manager_t :=
  { levels := fun _ => default_log_level
    loggers := []
    disposed := []
    next_id := 0
    destroyed := false }

/-- `get_logger_level(context)`: "Returns the set logger_level of a specific
context or 0" (header doc); reads the table entry. -/
def get_logger_level (this : logger_manager_t) (context : logger_context_t) : logger_level_t :=
  this.levels context

/-- `enable_logger_level(context, logger_level)`: unions the given bits into
the context's entry (spec 4.1: "unions flags into the category's current
set"). -/
def enable_logger_level (this : logger_manager_t) (context : logger_context_t)
    (logger_level : logger_level_t) : logger_manager_t :=
  { this with
    levels := fun c => if c = context then this.levels c ||| logger_level else this.levels c }

/-- `disable_logger_level(context, logger_level)`: clears the given bits from
the context's entry (spec 4.1: "clears flags from the category's current
set"). -/
def disable_logger_level (this : logger_manager_t) (context : logger_context_t)
    (logger_level : logger_level_t) : logger_manager_t :=
  { this with
    levels := fun c => if c = context then Nat.ldiff (this.levels c) logger_level
                       else this.levels c }

/-- `create_logger(context, name)`: body modelled from the spec (4.2): asks
the external capability for a new sink; on success registers the new handle in
the tracked set, on failure signals AllocationFailure and registers nothing.
Success of the external allocation is an input (`alloc_ok`). -/
def create_logger (this : logger_manager_t) (context : logger_context_t)
    (name : Option String) (alloc_ok : Bool) : Except LogError (logger_t × logger_manager_t) :=
  if alloc_ok then
    let l : logger_t := { context := context, name := name, id := this.next_id }
    Except.ok (l, { this with loggers := l :: this.loggers, next_id := this.next_id + 1 })
  else
    Except.error LogError.AllocationFailure

/-- `destroy_logger(logger)`: the header declares `void (*destroy_logger)
(logger_manager_t *this, logger_t *logger)` — no return value and no
out-parameter, so no condition can reach the caller.  Body modelled from the
spec (4.2): a tracked logger is removed from the tracked set and its resources
disposed; for an untracked logger the void interface forces a silent no-op
(the only behavior consistent with the spec's requirement that the tracked
set not be corrupted and no freed resource be used). -/
def destroy_logger (this : logger_manager_t) (logger : logger_t) : logger_manager_t :=
  if logger ∈ this.loggers then
    { this with
      loggers := this.loggers.erase logger
      disposed := this.disposed ++ [logger.id] }
  else
    this

/-- Modelled from the spec, for refinement comparison with `destroy_logger`:
spec 4.2 `release(handle)` demands that releasing a handle not currently
tracked be signaled as an InvalidHandle condition to the caller. -/
def release_spec (this : logger_manager_t) (logger : logger_t) :
    Except LogError logger_manager_t :=
  if logger ∈ this.loggers then
    Except.ok { this with
                loggers := this.loggers.erase logger
                disposed := this.disposed ++ [logger.id] }
  else
    Except.error LogError.InvalidHandle

/-- `destroy()` processing the still-tracked handles in a given order: each is
disposed via the external capability, then the table and the manager itself
are released (`destroyed := true`).  Body modelled from the spec (4.2
`shutdown`) and the header doc: "All remaining managed logger_t objects are
also destroyed." -/
def destroyUsing (this : logger_manager_t) (order : List logger_t) : logger_manager_t :=
  { levels := fun _ => 0
    loggers := []
    disposed := this.disposed ++ order.map (fun l => l.id)
    next_id := this.next_id
    destroyed := true }

/-- `destroy()`: shutdown processing the tracked set in its stored order. -/
def destroy (this : logger_manager_t) : logger_manager_t :=
  destroyUsing this this.loggers

/-- Modelled from the spec (section 6): the per-line decision of a handle —
it asks the table whether any of the requested bits is currently enabled for
its own category, consulting the live table value. -/
def log_decision (this : logger_manager_t) (logger : logger_t)
    (logger_level : logger_level_t) : Bool :=
  decide (this.levels logger.context &&& logger_level ≠ 0)

/-- One client call into the registry interface, as exposed by the header:
creation (with the external allocation outcome as input), release of a
handle, and the two level updates. -/
inductive LogOp where
  | create (context : logger_context_t) (name : Option String) (alloc_ok : Bool)
  | release (logger : logger_t)
  | enable (context : logger_context_t) (level : logger_level_t)
  | disable (context : logger_context_t) (level : logger_level_t)
  deriving DecidableEq, Repr

/-- Apply one interface call to the manager state.  A failed `create_logger`
leaves the state as it was (no partial registration). -/
def runOp (s : logger_manager_t) (op : LogOp) : logger_manager_t :=
  match op with
  | LogOp.create c n ok =>
      match create_logger s c n ok with
      | Except.ok r => r.2
      | Except.error _ => s
  | LogOp.release l => destroy_logger s l
  | LogOp.enable c lv => enable_logger_level s c lv
  | LogOp.disable c lv => disable_logger_level s c lv

/-- Apply a sequence of interface calls. -/
def run (s : logger_manager_t) (ops : List LogOp) : logger_manager_t :=
  List.foldl runOp s ops

/-- Does this call explicitly configure category `c`'s level? -/
def touches (c : logger_context_t) : LogOp → Bool
  | LogOp.enable c2 _ => c2 = c
  | LogOp.disable c2 _ => c2 = c
  | _ => false

/- ### Helper lemmas -/

theorem lor_lor_self (a f : Nat) : a ||| f ||| f = a ||| f :=
  Nat.eq_of_testBit_eq fun i => by
    simp [Nat.testBit_lor, Bool.or_assoc]

theorem ldiff_ldiff_self (a f : Nat) : Nat.ldiff (Nat.ldiff a f) f = Nat.ldiff a f :=
  Nat.eq_of_testBit_eq fun i => by
    simp [Nat.testBit_ldiff, Bool.and_assoc]

theorem runOp_levels_of_not_touches (s : logger_manager_t) (op : LogOp)
    (c : logger_context_t) (h : touches c op = false) :
    (runOp s op).levels c = s.levels c := by
  cases op with
  | create c2 n ok => cases ok <;> simp [runOp, create_logger]
  | release l =>
      simp only [runOp, destroy_logger]
      split <;> rfl
  | enable c2 lv =>
      have hne : ¬ c = c2 := fun hc => by simp [touches, hc] at h
      simp [runOp, enable_logger_level, hne]
  | disable c2 lv =>
      have hne : ¬ c = c2 := fun hc => by simp [touches, hc] at h
      simp [runOp, disable_logger_level, hne]

theorem run_levels_of_not_touches (ops : List LogOp) (s : logger_manager_t)
    (c : logger_context_t) (h : ∀ op ∈ ops, touches c op = false) :
    (run s ops).levels c = s.levels c := by
  induction ops generalizing s with
  | nil => rfl
  | cons op rest ih =>
      have h1 : touches c op = false := h op (List.mem_cons_self op rest)
      have h2 : ∀ o ∈ rest, touches c o = false := fun o ho => h o (List.mem_cons_of_mem op ho)
      calc (run s (op :: rest)).levels c
          = (run (runOp s op) rest).levels c := by rw [run, List.foldl_cons]; rfl
        _ = (runOp s op).levels c := ih (runOp s op) h2
        _ = s.levels c := runOp_levels_of_not_touches s op c h1

/- ### Claims -/

/-- C1: for every category `c` and flag set `f`, after `enable_logger_level
(c, f)` the level read by `get_logger_level c` contains every bit of `f`; a
subsequent `disable_logger_level (c, f)` yields a level containing none of
`f`'s bits; and both operations are idempotent on the manager state. -/
theorem enable_disable_superset_idem (s : logger_manager_t) (c : logger_context_t)
    (f : logger_level_t) (i : Nat) :
    (f.testBit i = true →
      (get_logger_level (enable_logger_level s c f) c).testBit i = true) ∧
    (f.testBit i = true →
      (get_logger_level (disable_logger_level (enable_logger_level s c f) c f) c).testBit i
        = false) ∧
    enable_logger_level (enable_logger_level s c f) c f = enable_logger_level s c f ∧
    disable_logger_level (disable_logger_level s c f) c f = disable_logger_level s c f := by
  refine ⟨fun hf => ?_, fun hf => ?_, ?_, ?_⟩
  · simp [get_logger_level, enable_logger_level, Nat.testBit_lor, hf]
  · simp [get_logger_level, disable_logger_level, enable_logger_level, Nat.testBit_ldiff, hf]
  · have hl : (enable_logger_level (enable_logger_level s c f) c f).levels
        = (enable_logger_level s c f).levels := by
      funext x
      by_cases hx : x = c
      · simp [enable_logger_level, hx, lor_lor_self]
      · simp [enable_logger_level, hx]
    exact logger_manager_t.ext hl rfl rfl rfl rfl
  · have hl : (disable_logger_level (disable_logger_level s c f) c f).levels
        = (disable_logger_level s c f).levels := by
      funext x
      by_cases hx : x = c
      · simp [disable_logger_level, hx, ldiff_ldiff_self]
      · simp [disable_logger_level, hx]
    exact logger_manager_t.ext hl rfl rfl rfl rfl

/-- Witness for C1 at a concrete manager, category and flag set. -/
theorem enable_disable_superset_idem_witness :
    ((get_logger_level
        (enable_logger_level (logger_manager_create 1) logger_context_t.WORKER 4)
        logger_context_t.WORKER).testBit 2 = true) ∧
    ((get_logger_level
        (disable_logger_level
          (enable_logger_level (logger_manager_create 1) logger_context_t.WORKER 4)
          logger_context_t.WORKER 4)
        logger_context_t.WORKER).testBit 2 = false) ∧
    (enable_logger_level
        (enable_logger_level (logger_manager_create 1) logger_context_t.WORKER 4)
        logger_context_t.WORKER 4
      = enable_logger_level (logger_manager_create 1) logger_context_t.WORKER 4) ∧
    (disable_logger_level
        (disable_logger_level (logger_manager_create 1) logger_context_t.WORKER 4)
        logger_context_t.WORKER 4
      = disable_logger_level (logger_manager_create 1) logger_context_t.WORKER 4) := by
  have h := enable_disable_superset_idem (logger_manager_create 1) logger_context_t.WORKER 4 2
  exact ⟨h.1 (by decide), h.2.1 (by decide), h.2.2.1, h.2.2.2⟩

/-- C2: enabling or disabling levels of category `a` leaves the level read
for any other category `b` unchanged. -/
theorem enable_disable_frame (s : logger_manager_t) (a b : logger_context_t)
    (f : logger_level_t) (hab : a ≠ b) :
    get_logger_level (enable_logger_level s a f) b = get_logger_level s b ∧
    get_logger_level (disable_logger_level s a f) b = get_logger_level s b := by
  have hba : ¬ b = a := fun hb => hab hb.symm
  exact ⟨by simp [get_logger_level, enable_logger_level, hba],
         by simp [get_logger_level, disable_logger_level, hba]⟩

/-- Witness for C2 at two concrete distinct categories. -/
theorem enable_disable_frame_witness :
    get_logger_level
        (enable_logger_level (logger_manager_create 3) logger_context_t.PARSER 5)
        logger_context_t.GENERATOR
      = get_logger_level (logger_manager_create 3) logger_context_t.GENERATOR ∧
    get_logger_level
        (disable_logger_level (logger_manager_create 3) logger_context_t.PARSER 5)
        logger_context_t.GENERATOR
      = get_logger_level (logger_manager_create 3) logger_context_t.GENERATOR :=
  enable_disable_frame (logger_manager_create 3) logger_context_t.PARSER
    logger_context_t.GENERATOR 5 (by decide)

/-- C3: a category whose level no call of the run has explicitly configured
still reads the construction-time default, which is applied uniformly to
every category. -/
theorem untouched_reads_default (default_log_level : logger_level_t) (ops : List LogOp)
    (c : logger_context_t) (h : ∀ op ∈ ops, touches c op = false) :
    get_logger_level (run (logger_manager_create default_log_level) ops) c
      = default_log_level := by
  rw [get_logger_level,
      run_levels_of_not_touches ops (logger_manager_create default_log_level) c h]
  rfl

/-- Witness for C3: a run that creates a logger and configures another
category leaves PARSER at the default. -/
theorem untouched_reads_default_witness :
    get_logger_level
        (run (logger_manager_create 7)
          [LogOp.enable logger_context_t.GENERATOR 2,
           LogOp.create logger_context_t.WORKER none true,
           LogOp.disable logger_context_t.WORKER 1])
        logger_context_t.PARSER = 7 :=
  untouched_reads_default 7
    [LogOp.enable logger_context_t.GENERATOR 2,
     LogOp.create logger_context_t.WORKER none true,
     LogOp.disable logger_context_t.WORKER 1]
    logger_context_t.PARSER (by decide)

/- ### Sample states for concrete instantiations -/

/-- The handle created first by a fresh manager for WORKER. -/
def sample_logger : logger_t :=
  { context := logger_context_t.WORKER, name := none, id := 0 }

/-- The handle created second, for SENDER. -/
def sample_logger1 : logger_t :=
  { context := logger_context_t.SENDER, name := none, id := 1 }

/-- A manager tracking one live logger. -/
def sample_manager1 : logger_manager_t :=
  run (logger_manager_create 1) [LogOp.create logger_context_t.WORKER none true]

/-- A manager tracking two live loggers. -/
def sample_manager : logger_manager_t :=
  run (logger_manager_create 1)
    [LogOp.create logger_context_t.WORKER none true,
     LogOp.create logger_context_t.SENDER none true]

/- ### Liveness invariant -/

/-- Bookkeeping invariant of a manager state: tracked loggers carry pairwise
distinct ids, none of them has already been disposed, and every id ever
handed out (tracked or disposed) lies below the fresh-id counter. -/
def ManagerInv (s : logger_manager_t) : Prop :=
  (s.loggers.map (fun x => x.id)).Nodup ∧
  (∀ l ∈ s.loggers, l.id ∉ s.disposed) ∧
  (∀ l ∈ s.loggers, l.id < s.next_id) ∧
  (∀ i ∈ s.disposed, i < s.next_id)

theorem destroy_logger_eq_of_not_mem (s : logger_manager_t) (l : logger_t)
    (h : l ∉ s.loggers) : destroy_logger s l = s := by
  simp [destroy_logger, h]

theorem Inv_logger_manager_create (d : logger_level_t) : ManagerInv (logger_manager_create d) := by
  refine ⟨List.nodup_nil, ?_, ?_, ?_⟩ <;> intro x hx <;> simp [logger_manager_create] at hx

theorem Inv_runOp (s : logger_manager_t) (op : LogOp) (h : ManagerInv s) : ManagerInv (runOp s op) := by
  obtain ⟨hnd, hfresh, hbound, hdbound⟩ := h
  cases op with
  | create c n ok =>
      cases ok with
      | false => exact ⟨hnd, hfresh, hbound, hdbound⟩
      | true =>
          show ManagerInv { s with
            loggers := { context := c, name := n, id := s.next_id } :: s.loggers
            next_id := s.next_id + 1 }
          refine ⟨?_, ?_, ?_, ?_⟩
          · simp only [List.map_cons]
            refine List.nodup_cons.mpr ⟨?_, hnd⟩
            intro hmem
            obtain ⟨g, hg, hgid⟩ := List.mem_map.mp hmem
            exact Nat.lt_irrefl _ (hgid ▸ hbound g hg)
          · intro g hg
            rcases List.mem_cons.mp hg with hgl | hgs
            · subst hgl
              intro hmem
              exact Nat.lt_irrefl _ (hdbound _ hmem)
            · exact hfresh g hgs
          · intro g hg
            rcases List.mem_cons.mp hg with hgl | hgs
            · subst hgl; exact Nat.lt_succ_self _
            · exact Nat.lt_succ_of_lt (hbound g hgs)
          · exact fun i hi => Nat.lt_succ_of_lt (hdbound i hi)
  | release l =>
      show ManagerInv (destroy_logger s l)
      by_cases hl : l ∈ s.loggers
      · have hstruct : s.loggers.Nodup := List.Nodup.of_map _ hnd
        unfold destroy_logger
        rw [if_pos hl]
        refine ⟨?_, ?_, ?_, ?_⟩
        · exact hnd.sublist ((List.erase_sublist l s.loggers).map _)
        · intro g hg
          have hgmem : g ∈ s.loggers := List.mem_of_mem_erase hg
          have hgne : g ≠ l := ((hstruct.mem_erase_iff).mp hg).1
          intro hcontra
          rcases List.mem_append.mp hcontra with hin | hin
          · exact hfresh g hgmem hin
          · have hid : g.id = l.id := by simpa using hin
            exact hgne (List.inj_on_of_nodup_map hnd hgmem hl hid)
        · exact fun g hg => hbound g (List.mem_of_mem_erase hg)
        · intro i hi
          rcases List.mem_append.mp hi with hin | hin
          · exact hdbound i hin
          · have hid : i = l.id := by simpa using hin
            exact hid ▸ hbound l hl
      · rw [destroy_logger_eq_of_not_mem s l hl]
        exact ⟨hnd, hfresh, hbound, hdbound⟩
  | enable c lv => exact ⟨hnd, hfresh, hbound, hdbound⟩
  | disable c lv => exact ⟨hnd, hfresh, hbound, hdbound⟩

theorem Inv_run (s : logger_manager_t) (ops : List LogOp) (h : ManagerInv s) : ManagerInv (run s ops) := by
  induction ops generalizing s with
  | nil => exact h
  | cons op rest ih => exact ih (runOp s op) (Inv_runOp s op h)

/-- Shutdown, processing the still-tracked handles in any order that is a
permutation of the tracked set, disposes each tracked id exactly once. -/
theorem destroyUsing_count (s : logger_manager_t) (order : List logger_t)
    (hperm : order.Perm s.loggers)
    (hnd : (s.loggers.map (fun x => x.id)).Nodup)
    (hfresh : ∀ l ∈ s.loggers, l.id ∉ s.disposed)
    (l : logger_t) (hl : l ∈ s.loggers) :
    (destroyUsing s order).disposed.count l.id = 1 := by
  have h0 : s.disposed.count l.id = 0 := List.count_eq_zero_of_not_mem (hfresh l hl)
  have hmapperm : (order.map (fun x => x.id)).Perm (s.loggers.map (fun x => x.id)) :=
    hperm.map _
  have hcount : (order.map (fun x => x.id)).count l.id
      = (s.loggers.map (fun x => x.id)).count l.id := hmapperm.count_eq _
  have hmem : l.id ∈ s.loggers.map (fun x => x.id) := List.mem_map_of_mem _ hl
  have h1 : (s.loggers.map (fun x => x.id)).count l.id = 1 :=
    List.count_eq_one_of_mem hnd hmem
  show (s.disposed ++ order.map (fun x => x.id)).count l.id = 1
  rw [List.count_append, h0, hcount, h1]

/-- C4 counterexample: after creating and releasing the same handle, the
spec-side `release_spec` signals InvalidHandle for the second release, but the
code-side `destroy_logger` — declared `void` in the header, with no
out-parameter — returns only the unchanged manager state, so no condition
reaches the caller. -/
theorem release_invalidhandle_counterexample :
    release_spec
        (run (logger_manager_create 1)
          [LogOp.create logger_context_t.WORKER none true, LogOp.release sample_logger])
        sample_logger
      = Except.error LogError.InvalidHandle ∧
    destroy_logger
        (run (logger_manager_create 1)
          [LogOp.create logger_context_t.WORKER none true, LogOp.release sample_logger])
        sample_logger
      = run (logger_manager_create 1)
          [LogOp.create logger_context_t.WORKER none true, LogOp.release sample_logger] :=
  ⟨rfl, rfl⟩

/-- C4 (amended): a second release of the same handle is silently ignored —
the void interface of `destroy_logger` cannot report InvalidHandle — leaving
the state of the first release unchanged, and every other tracked handle
survives the first release untouched. -/
theorem double_release_silent_noop (s : logger_manager_t) (l : logger_t)
    (hl : l ∈ s.loggers) (hnd : s.loggers.Nodup) :
    destroy_logger (destroy_logger s l) l = destroy_logger s l ∧
    ∀ g ∈ s.loggers, g ≠ l → g ∈ (destroy_logger s l).loggers := by
  have hrm : (destroy_logger s l).loggers = s.loggers.erase l := by
    simp [destroy_logger, hl]
  have hnotmem : l ∉ (destroy_logger s l).loggers := by
    rw [hrm]; exact hnd.not_mem_erase
  refine ⟨destroy_logger_eq_of_not_mem _ _ hnotmem, ?_⟩
  intro g hg hgl
  rw [hrm]
  exact (List.mem_erase_of_ne hgl).mpr hg

/-- Witness for C4's amended claim at a concrete manager and handle. -/
theorem double_release_silent_noop_witness :
    destroy_logger (destroy_logger sample_manager1 sample_logger) sample_logger
      = destroy_logger sample_manager1 sample_logger ∧
    sample_logger1 ∈ (destroy_logger sample_manager sample_logger).loggers := by
  have h := double_release_silent_noop sample_manager1 sample_logger (by decide) (by decide)
  have h2 := double_release_silent_noop sample_manager sample_logger (by decide) (by decide)
  exact ⟨h.1, h2.2 sample_logger1 (by decide) (by decide)⟩

/-- C5: shutdown, processing the tracked handles in any order (any
permutation of the tracked set), disposes every tracked handle exactly once,
and afterwards the tracked set is empty, the table is cleared and the manager
itself is released. -/
theorem destroy_releases_each_once (s : logger_manager_t) (order : List logger_t)
    (hperm : order.Perm s.loggers)
    (hnd : (s.loggers.map (fun x => x.id)).Nodup)
    (hfresh : ∀ l ∈ s.loggers, l.id ∉ s.disposed) :
    (∀ l ∈ s.loggers, (destroyUsing s order).disposed.count l.id = 1) ∧
    (destroyUsing s order).loggers = [] ∧
    (destroyUsing s order).destroyed = true :=
  ⟨fun l hl => destroyUsing_count s order hperm hnd hfresh l hl, rfl, rfl⟩

/-- Witness for C5: a manager with two live handles, shut down processing
them in reversed order; each id is disposed exactly once. -/
theorem destroy_releases_each_once_witness :
    ((destroyUsing sample_manager [sample_logger, sample_logger1]).disposed.count 0 = 1) ∧
    ((destroyUsing sample_manager [sample_logger, sample_logger1]).disposed.count 1 = 1) ∧
    (destroyUsing sample_manager [sample_logger, sample_logger1]).loggers = [] ∧
    (destroyUsing sample_manager [sample_logger, sample_logger1]).destroyed = true := by
  have h := destroy_releases_each_once sample_manager [sample_logger, sample_logger1]
    (by decide) (by decide) (by decide)
  exact ⟨h.1 sample_logger (by decide), h.1 sample_logger1 (by decide), h.2.1, h.2.2⟩

/-- C6: `create_logger` either succeeds, returning a handle registered in a
tracked set grown by exactly one, or — exactly when the external allocation
fails — signals AllocationFailure and leaves the manager state unchanged (no
partial registration). -/
theorem create_logger_grows_or_fails (s : logger_manager_t) (c : logger_context_t)
    (n : Option String) (ok : Bool) :
    (ok = true → ∃ l s2, create_logger s c n ok = Except.ok (l, s2) ∧
        s2.loggers.length = s.loggers.length + 1 ∧ l ∈ s2.loggers) ∧
    (ok = false → create_logger s c n ok = Except.error LogError.AllocationFailure ∧
        runOp s (LogOp.create c n ok) = s) := by
  constructor
  · rintro rfl
    refine ⟨_, _, rfl, ?_, ?_⟩
    · simp [create_logger]
    · exact List.mem_cons_self _ _
  · rintro rfl
    exact ⟨rfl, rfl⟩

/-- Witness for C6: both outcomes at a concrete manager. -/
theorem create_logger_grows_or_fails_witness :
    (∃ l s2, create_logger (logger_manager_create 0) logger_context_t.WORKER none true
        = Except.ok (l, s2) ∧
        s2.loggers.length = (logger_manager_create 0).loggers.length + 1 ∧ l ∈ s2.loggers) ∧
    (create_logger (logger_manager_create 0) logger_context_t.WORKER none false
        = Except.error LogError.AllocationFailure ∧
      runOp (logger_manager_create 0) (LogOp.create logger_context_t.WORKER none false)
        = logger_manager_create 0) :=
  ⟨(create_logger_grows_or_fails (logger_manager_create 0) logger_context_t.WORKER
      none true).1 rfl,
   (create_logger_grows_or_fails (logger_manager_create 0) logger_context_t.WORKER
      none false).2 rfl⟩

/-- C7: a handle created before an `enable_logger_level` call on its category
consults the live table, not a creation-time snapshot: any logging decision
made after the call sees the newly enabled bits and lets a message with those
bits through. -/
theorem live_table_consultation (s : logger_manager_t) (c : logger_context_t)
    (n : Option String) (f F : logger_level_t) (l : logger_t) (s2 : logger_manager_t)
    (hcreate : create_logger s c n true = Except.ok (l, s2))
    (hf0 : f ≠ 0) (hsub : ∀ i, f.testBit i = true → F.testBit i = true) :
    log_decision (enable_logger_level s2 c F) l f = true := by
  have hl : l = { context := c, name := n, id := s.next_id } := by
    simp only [create_logger, if_true, Except.ok.injEq, Prod.mk.injEq] at hcreate
    exact hcreate.1.symm
  have hbit : ∃ i, f.testBit i = true := by
    by_contra hno
    push_neg at hno
    apply hf0
    apply Nat.eq_of_testBit_eq
    intro i
    rw [Nat.zero_testBit]
    simpa using hno i
  obtain ⟨i, hi⟩ := hbit
  have hFi : F.testBit i = true := hsub i hi
  have hctx : l.context = c := by rw [hl]
  rw [log_decision]
  apply decide_eq_true
  intro hz
  have hbitz : ((enable_logger_level s2 c F).levels l.context &&& f).testBit i = false := by
    rw [hz]; exact Nat.zero_testBit i
  have henl : (enable_logger_level s2 c F).levels c = s2.levels c ||| F := by
    simp [enable_logger_level]
  rw [hctx, henl, Nat.testBit_land, Nat.testBit_lor, hi, hFi] at hbitz
  simp at hbitz

/-- Witness for C7: the WORKER handle of a fresh all-zero manager lets a
DEBUG-bit message through once DEBUG is enabled after its creation. -/
theorem live_table_consultation_witness :
    log_decision
        (enable_logger_level
          (run (logger_manager_create 0) [LogOp.create logger_context_t.WORKER none true])
          logger_context_t.WORKER 4)
        sample_logger 4 = true :=
  live_table_consultation (logger_manager_create 0) logger_context_t.WORKER none 4 4
    sample_logger
    (run (logger_manager_create 0) [LogOp.create logger_context_t.WORKER none true])
    rfl (by decide) (fun _ hi => hi)

/-- C8: `get_logger_level` is total with no error path — on every manager
state it returns exactly the category's current table entry — and a category
never explicitly configured on a manager constructed with the empty default
reads the empty set 0. -/
theorem get_logger_level_total (s : logger_manager_t) (c : logger_context_t)
    (ops : List LogOp) (h : ∀ op ∈ ops, touches c op = false) :
    get_logger_level s c = s.levels c ∧
    get_logger_level (run (logger_manager_create 0) ops) c = 0 :=
  ⟨rfl, by
    rw [get_logger_level, run_levels_of_not_touches ops (logger_manager_create 0) c h]
    rfl⟩

/-- Witness for C8 at a concrete manager and run. -/
theorem get_logger_level_total_witness :
    get_logger_level sample_manager logger_context_t.PARSER
      = sample_manager.levels logger_context_t.PARSER ∧
    get_logger_level
        (run (logger_manager_create 0) [LogOp.enable logger_context_t.GENERATOR 2])
        logger_context_t.PARSER = 0 :=
  get_logger_level_total sample_manager logger_context_t.PARSER
    [LogOp.enable logger_context_t.GENERATOR 2] (by decide)

/-- C9: `destroy_logger` has no result channel at the interface — the header
declares it void with no out-parameter, so it yields only the manager state —
and called on a handle not tracked by the registry it reports no condition of
any kind: the state comes back unchanged. -/
theorem destroy_logger_reports_nothing (s : logger_manager_t) (l : logger_t)
    (h : l ∉ s.loggers) : destroy_logger s l = s :=
  destroy_logger_eq_of_not_mem s l h

/-- Witness for C9: releasing a never-owned handle on a fresh manager. -/
theorem destroy_logger_reports_nothing_witness :
    destroy_logger (logger_manager_create 2) sample_logger1 = logger_manager_create 2 :=
  destroy_logger_reports_nothing (logger_manager_create 2) sample_logger1 (by decide)

/-- C10: with the registry as sole disposer — every interaction goes through
the interface calls, which offer no direct disposal of a handle — every
reachable manager state satisfies the liveness invariant: tracked handles
have distinct ids, none already disposed; hence shutdown disposes each
tracked handle exactly once and never an already-disposed one. -/
theorem registry_sole_disposer (default_log_level : logger_level_t) (ops : List LogOp) :
    ManagerInv (run (logger_manager_create default_log_level) ops) ∧
    ∀ l ∈ (run (logger_manager_create default_log_level) ops).loggers,
      l.id ∉ (run (logger_manager_create default_log_level) ops).disposed ∧
      (destroy (run (logger_manager_create default_log_level) ops)).disposed.count l.id
        = 1 := by
  have hManagerInv := Inv_run (logger_manager_create default_log_level) ops
    (Inv_logger_manager_create default_log_level)
  refine ⟨hManagerInv, fun l hl => ⟨hManagerInv.2.1 l hl, ?_⟩⟩
  exact destroyUsing_count _ _ (List.Perm.refl _) hManagerInv.1 hManagerInv.2.1 l hl

/-- Witness for C10: after two creations and one release the surviving
handle is live and shutdown disposes it exactly once. -/
theorem registry_sole_disposer_witness :
    sample_logger1.id ∉
      (run (logger_manager_create 0)
        [LogOp.create logger_context_t.WORKER none true,
         LogOp.create logger_context_t.SENDER none true,
         LogOp.release sample_logger]).disposed ∧
    (destroy (run (logger_manager_create 0)
        [LogOp.create logger_context_t.WORKER none true,
         LogOp.create logger_context_t.SENDER none true,
         LogOp.release sample_logger])).disposed.count sample_logger1.id = 1 :=
  (registry_sole_disposer 0
    [LogOp.create logger_context_t.WORKER none true,
     LogOp.create logger_context_t.SENDER none true,
     LogOp.release sample_logger]).2 sample_logger1 (by decide)
